import Mathlib

/-!
Verification development for the Brookline cablecast pipeline scripts
(`brookline_downloader.py`, `brookline_uploader.py`, `brookline_manager.py`).

The Python code is shallowly embedded: timestamps are integers (seconds),
Python `set` objects are duplicate-free lists, and browser / filesystem /
remote side effects are carried as explicit state fields.  Fallible element
lookups are represented by outcome parameters, and the one unbounded loop
(`wait_for_upload_slots`) is embedded with an explicit fuel bound.
-/

namespace Brookline

/-- Model of Python `set.add`: insert an element into a duplicate-free list,
a no-op when the element is already present. -/
def setAdd (s : List String) (x : String) : List String :=
  if x ∈ s then s else x :: s

/-- Model of `save_downloaded_events`: the ledger file
`downloaded_events.txt` holds one line per recorded event id, in sorted
order (`for event_id in sorted(self.downloaded_events)`). -/
def saveDownloadedEvents (events : List String) : List String :=
  events.mergeSort (fun a b => a ≤ b)

/-- Entry of `self.downloading_tabs` / `self.uploading_tabs`: a browser tab
with an in-flight transfer, identified by event number (downloader) or
filename (uploader), stamped with its `start_time` from `time.time()`. -/
structure TabEntry where
  ident : String
  startTime : Int
  deriving DecidableEq

/-- State of `SimpleBrooklineDownloader` relevant to the ledger claims:
the in-memory `downloaded_events` set, the persisted
`downloaded_events.txt` contents, the tracked download tabs, and (for
side-effect reasoning) the set of event ids whose video file is completely
written inside its download folder. -/
structure DlState where
  downloadedEvents : List String
  savedEvents : List String
  downloadingTabs : List TabEntry
  artifactsOnDisk : List String
  deriving DecidableEq

/-- Model of `self.downloaded_events.add(event_number)` followed by
`save_downloaded_events()`; the save wraps its body in try/except and
swallows every exception, so from the caller it always succeeds (`true`). -/
def recordDownloadCompletion (st : DlState) (eventNumber : String) :
    DlState × Bool :=
  let events := setAdd st.downloadedEvents eventNumber
  ({ st with downloadedEvents := events,
             savedEvents := saveDownloadedEvents events }, true)

/-- Model of the tail of `start_download` once the video page is open: when
the download button is found, the click starts a background transfer, the
tab is appended to `downloading_tabs`, and the event id is immediately
recorded in the ledger and saved; the video file itself is not yet on disk
at that point (the transfer continues in the background, so
`artifactsOnDisk` is untouched).  When the button is missing the function
returns `False` and changes nothing. -/
def startDownload (st : DlState) (eventNumber : String) (startTime : Int)
    (downloadButtonFound : Bool) : DlState × Bool :=
  if downloadButtonFound then
    let st1 := { st with
      downloadingTabs := st.downloadingTabs ++ [⟨eventNumber, startTime⟩] }
    recordDownloadCompletion st1 eventNumber
  else (st, false)

/-- Outcome of driving one catalog entry in `process_single_meeting`
(which browser elements were found along the way). -/
inductive MeetingOutcome
  | noNewTab
  | notMeetingPage
  | noMediaButton
  | noVideoLink
  | videoFound (downloadButtonFound : Bool) (startTime : Int)
  deriving DecidableEq

/-- Model of `process_single_meeting`: only the path that finds a video URL
reaches `start_download`; every other path (no new tab, not a meeting page,
no media button, no video link / "no video" message) closes the tab and
returns `False` without touching the ledger. -/
def processSingleMeeting (st : DlState) (eventNumber : String)
    (oc : MeetingOutcome) : DlState × Bool :=
  match oc with
  | .videoFound bf t => startDownload st eventNumber t bf
  | _ => (st, false)

/-- One catalog entry as scraped by `load_all_events`: the numeric event id
from the element id, and the parsed event date (`none` when the date regex
did not match). -/
structure MeetingElement where
  eventNumber : String
  sourceDate : Option Int
  deriving DecidableEq

def secondsPerDay : Int := 86400

/-- Model of the candidate filter of `load_all_events`: elements are walked
in reversed page order (newest first); already-downloaded events are
skipped, events with no parsable date are skipped, and only events with
`one_week_ago <= event_date <= current_date` are kept, where
`one_week_ago = current_date - timedelta(days=14)`. -/
def loadAllEvents (downloaded : List String) (now : Int)
    (elements : List MeetingElement) : List MeetingElement :=
  elements.reverse.filter fun e =>
    !(decide (e.eventNumber ∈ downloaded)) &&
      (match e.sourceDate with
       | some d => decide (now - 14 * secondsPerDay ≤ d) && decide (d ≤ now)
       | none => false)

/-- Model of the ledger-relevant part of one `run_download_scan` pass:
discover the candidate list with `load_all_events`, then run
`process_single_meeting` on each candidate with its outcome. -/
def runScanPass (st : DlState) (now : Int) (elements : List MeetingElement)
    (outcomes : String → MeetingOutcome) : DlState :=
  (loadAllEvents st.downloadedEvents now elements).foldl
    (fun s e => (processSingleMeeting s e.eventNumber (outcomes e.eventNumber)).1)
    st

/-- Model of `cleanup_old_download_tabs`: close (drop) every tracked
download tab whose wall-clock age exceeds 300 seconds (5 minutes). -/
def cleanupOldDownloadTabs (now : Int) (tabs : List TabEntry) :
    List TabEntry :=
  tabs.filter fun t => !(decide (now - t.startTime > 300))

/-- Model of `cleanup_old_upload_tabs`: close (drop) every tracked upload
tab whose wall-clock age exceeds 720 seconds (12 minutes). -/
def cleanupOldUploadTabs (now : Int) (tabs : List TabEntry) :
    List TabEntry :=
  tabs.filter fun t => !(decide (now - t.startTime > 720))

/-- Model of `limit_open_tabs`: the open browser windows are the main tab
plus the tracked download tabs; when more than 10 windows are open, the
oldest (`start_time`-sorted) download tabs are closed until 10 windows
remain.  The surviving multiset of tabs is what matters here; the embedding
keeps them in age order. -/
def limitOpenTabs (tabs : List TabEntry) : List TabEntry :=
  let totalTabs := tabs.length + 1
  if totalTabs > 10 then
    (tabs.mergeSort (fun a b => a.startTime ≤ b.startTime)).drop (totalTabs - 10)
  else tabs

/-- Model of `limit_open_upload_tabs`: same policy as the downloader side,
applied to the tracked upload tabs (window handles are the tracked upload
tabs plus the surviving assets tab). -/
def limitOpenUploadTabs (tabs : List TabEntry) : List TabEntry :=
  let totalTabs := tabs.length + 1
  if totalTabs > 10 then
    (tabs.mergeSort (fun a b => a.startTime ≤ b.startTime)).drop (totalTabs - 10)
  else tabs

/-- Model of `wait_for_upload_slots`: loop while at least `maxConcurrent`
upload tabs are live; each round sleeps 30 seconds and then reclaims tabs
older than 12 minutes.  The Python loop has no timeout parameter and no
error result; `fuel` only bounds the embedding's recursion depth (`none`
means the loop had not yet exited after `fuel` sleep rounds). -/
def waitForUploadSlots : Nat → Int → List TabEntry → Nat →
    Option (Int × List TabEntry)
  | 0, now, tabs, maxConcurrent =>
    if tabs.length < maxConcurrent then some (now, tabs) else none
  | fuel + 1, now, tabs, maxConcurrent =>
    if tabs.length < maxConcurrent then some (now, tabs)
    else
      waitForUploadSlots fuel (now + 30)
        (cleanupOldUploadTabs (now + 30) tabs) maxConcurrent

/-- State of `BrooklineCablecastUploader` relevant to the ledger claims:
the in-memory `uploaded_files` set, the `uploaded_files` array persisted in
`uploaded_files.json`, the tracked upload tabs, and (for side-effect
reasoning) the set of relative paths the remote Cablecast system has
actually confirmed accepting. -/
structure UpState where
  uploadedFiles : List String
  savedUploadedFiles : List String
  uploadingTabs : List TabEntry
  remoteAccepted : List String
  deriving DecidableEq

/-- Model of `self.uploaded_files.add(relative_path)` followed by
`save_upload_history()` (which writes `list(self.uploaded_files)` into the
JSON file and swallows every exception, hence always succeeds). -/
def recordUploadCompletion (st : UpState) (relPath : String) :
    UpState × Bool :=
  let files := setAdd st.uploadedFiles relPath
  ({ st with uploadedFiles := files, savedUploadedFiles := files }, true)

/-- Outcome of the element lookups inside `upload_file`. -/
inductive UploadOutcome
  | buttonsFound
  | fileInputMissing
  | controlMissing
  deriving DecidableEq

/-- Model of `upload_file`: on the success path (upload button, file input,
and final upload button all found) the final click starts the remote
transfer, the current tab is tracked in `uploading_tabs`, the code sleeps 5
seconds and then records the relative path in the upload ledger; no
confirmation from the remote system is awaited (`remoteAccepted` is
untouched).  The failure paths return `False` without touching the
ledger. -/
def uploadFile (st : UpState) (relPath : String) (startTime : Int)
    (outcome : UploadOutcome) : UpState × Bool :=
  match outcome with
  | .buttonsFound =>
    let st1 := { st with
      uploadingTabs := st.uploadingTabs ++ [⟨relPath, startTime⟩] }
    recordUploadCompletion st1 relPath
  | _ => (st, false)

/-- One file found under a `corrected_format` folder by
`find_files_to_upload`: its path relative to the watch folder, its
`st_size`, and its `st_mtime`. -/
structure ScanFile where
  relPath : String
  sizeBytes : Nat
  mtime : Int
  deriving DecidableEq

/-- Model of the per-file test of `find_files_to_upload`: the file is kept
iff its relative path is not in `uploaded_files`, its size strictly exceeds
`1024 * 1024` bytes, and `current_time - file_modified_time > 300`
seconds. -/
def fileEligible (uploaded : List String) (now : Int) (f : ScanFile) : Bool :=
  !(decide (f.relPath ∈ uploaded)) && decide (f.sizeBytes > 1024 * 1024) &&
    decide (now - f.mtime > 300)

/-- Model of `find_files_to_upload` over the already-scanned list of
candidate mp4 files inside `corrected_format` folders. -/
def findFilesToUpload (uploaded : List String) (now : Int)
    (files : List ScanFile) : List ScanFile :=
  files.filter (fileEligible uploaded now)

/-- Result of reading `uploaded_files.json` inside `load_upload_history`. -/
inductive LoadResult
  | fileMissing
  | parsed (files : List String)
  | loadFailed
  deriving DecidableEq

/-- Model of `load_upload_history`: `self.uploaded_files` starts as the
empty set; a successful parse replaces it with the stored list, a missing
file keeps it empty, and any exception while opening or parsing resets it
to the empty set (`except` branch: `self.uploaded_files = set()`). -/
def loadUploadHistory : LoadResult → List String
  | .fileMissing => []
  | .parsed files => files
  | .loadFailed => []

/-- State of one scheduler loop (`auto_refresh_scheduler`,
`auto_upload_scheduler`, or `schedule_auto_sync`): the current time, the
time the registered job next fires, and the completed pass intervals in
completion order. -/
structure SchedState where
  now : Int
  nextRun : Int
  passes : List (Int × Int)
  deriving DecidableEq

def cycleInterval : Int := 6 * 3600

/-- Model of one iteration of the scheduler loop body: when the job is due,
`schedule.run_pending()` runs the registered pass synchronously on the
calling thread (the loop is inside the pass for its whole duration, and the
`schedule` library then sets the next run one interval after the pass
completes); otherwise `time.sleep(60)` just advances time. -/
def schedStep (passDuration : Nat) (s : SchedState) : SchedState :=
  if s.nextRun ≤ s.now then
    { now := s.now + passDuration
      nextRun := s.now + passDuration + cycleInterval
      passes := s.passes ++ [(s.now, s.now + passDuration)] }
  else
    { s with now := s.now + 60 }

/-- Iterate the scheduler loop `n` times. -/
def schedSteps (passDuration : Nat) : Nat → SchedState → SchedState
  | 0, s => s
  | n + 1, s => schedSteps passDuration n (schedStep passDuration s)

/-- Initial scheduler state: the job is registered and due (the manager's
`schedule_auto_sync` even runs the first cycle immediately). -/
def schedInit (t0 : Int) : SchedState :=
  { now := t0, nextRun := t0, passes := [] }

/-- One downloader-loop step touching the tab pool, mirroring
`run_download_scan`: each candidate first runs `limit_open_tabs` and then
`process_single_meeting`, which retains at most one new download tab; every
tenth candidate additionally runs `cleanup_old_download_tabs` first. -/
inductive DlTabOp
  | cleanup (now : Int)
  | processEvent (entry : TabEntry) (tabRetained : Bool)
  deriving DecidableEq

def dlTabStep (tabs : List TabEntry) : DlTabOp → List TabEntry
  | .cleanup now => cleanupOldDownloadTabs now tabs
  | .processEvent entry tabRetained =>
    let tabs1 := limitOpenTabs tabs
    if tabRetained then tabs1 ++ [entry] else tabs1

/-- Run a sequence of downloader tab-pool operations. -/
def dlTabRun (tabs : List TabEntry) (ops : List DlTabOp) : List TabEntry :=
  ops.foldl dlTabStep tabs

/-- One uploader-loop step touching the tab pool, mirroring
`upload_session`: each file first blocks in `wait_for_upload_slots` (slot
bound 10) and then `upload_file` tracks one new upload tab; every third
file additionally runs `cleanup_old_upload_tabs` and
`limit_open_upload_tabs`. -/
inductive UpTabOp
  | uploadOne (fuel : Nat) (now : Int) (entry : TabEntry)
  | cleanup (now : Int)
  | limitTabs
  deriving DecidableEq

def upTabStep (tabs : List TabEntry) : UpTabOp → Option (List TabEntry)
  | .uploadOne fuel now entry =>
    match waitForUploadSlots fuel now tabs 10 with
    | none => none
    | some (_, tabs1) => some (tabs1 ++ [entry])
  | .cleanup now => some (cleanupOldUploadTabs now tabs)
  | .limitTabs => some (limitOpenUploadTabs tabs)

/-- Run a sequence of uploader tab-pool operations (`none` when some
`wait_for_upload_slots` had not yet exited within its fuel). -/
def upTabRun (tabs : List TabEntry) : List UpTabOp → Option (List TabEntry)
  | [] => some tabs
  | op :: ops =>
    match upTabStep tabs op with
    | none => none
    | some tabs1 => upTabRun tabs1 ops

/-- Empty downloader state (fresh start, no history file). -/
def dlEmpty : DlState :=
  { downloadedEvents := [], savedEvents := [], downloadingTabs := [],
    artifactsOnDisk := [] }

/-- Empty uploader state (fresh start, no history file). -/
def upEmpty : UpState :=
  { uploadedFiles := [], savedUploadedFiles := [], uploadingTabs := [],
    remoteAccepted := [] }

/-- Ten upload tabs all leased at time 0 (a full pool of fresh slots). -/
def tenFreshTabs : List TabEntry :=
  (List.range 10).map fun i => ⟨toString i, 0⟩

/-! ### Helper lemmas -/

theorem setAdd_mem_self (s : List String) (x : String) : x ∈ setAdd s x := by
  unfold setAdd
  by_cases h : x ∈ s
  · simp [h]
  · simp [h]

theorem setAdd_nodup {s : List String} (x : String) (h : s.Nodup) :
    (setAdd s x).Nodup := by
  unfold setAdd
  by_cases hx : x ∈ s
  · simpa [hx]
  · simp [hx, h]

theorem setAdd_of_mem {s : List String} {x : String} (h : x ∈ s) :
    setAdd s x = s := by
  simp [setAdd, h]

theorem setAdd_count_self {s : List String} (x : String) (h : s.Nodup) :
    (setAdd s x).count x = 1 :=
  List.count_eq_one_of_mem (setAdd_nodup x h) (setAdd_mem_self s x)

theorem mem_setAdd {s : List String} {x y : String} :
    y ∈ setAdd s x ↔ y = x ∨ y ∈ s := by
  unfold setAdd
  by_cases hx : x ∈ s
  · simp only [hx, if_true]
    constructor
    · exact fun h => Or.inr h
    · rintro (rfl | h)
      · exact hx
      · exact h
  · simp [hx]

theorem saveDownloadedEvents_count (events : List String) (x : String) :
    (saveDownloadedEvents events).count x = events.count x :=
  (List.mergeSort_perm events _).count_eq x

theorem limitOpenTabs_length_le (tabs : List TabEntry) :
    (limitOpenTabs tabs).length ≤ 9 := by
  unfold limitOpenTabs
  by_cases h : tabs.length + 1 > 10
  · simp only [h, if_true, List.length_drop, List.length_mergeSort]
    omega
  · simp only [h, if_false]
    omega

theorem limitOpenUploadTabs_length_le (tabs : List TabEntry) :
    (limitOpenUploadTabs tabs).length ≤ 9 := by
  unfold limitOpenUploadTabs
  by_cases h : tabs.length + 1 > 10
  · simp only [h, if_true, List.length_drop, List.length_mergeSort]
    omega
  · simp only [h, if_false]
    omega

theorem waitForUploadSlots_length_lt :
    ∀ (fuel : Nat) (now : Int) (tabs : List TabEntry) (maxc : Nat)
      (r : Int × List TabEntry),
      waitForUploadSlots fuel now tabs maxc = some r → r.2.length < maxc := by
  intro fuel
  induction fuel with
  | zero =>
    intro now tabs maxc r h
    unfold waitForUploadSlots at h
    by_cases hc : tabs.length < maxc
    · simp only [hc, if_true, Option.some.injEq] at h
      rw [← h]
      exact hc
    · simp [hc] at h
  | succ f ih =>
    intro now tabs maxc r h
    unfold waitForUploadSlots at h
    by_cases hc : tabs.length < maxc
    · simp only [hc, if_true, Option.some.injEq] at h
      rw [← h]
      exact hc
    · simp only [hc, if_false] at h
      exact ih _ _ _ _ h

theorem dlTabStep_length_le (tabs : List TabEntry) (op : DlTabOp)
    (h : tabs.length ≤ 10) : (dlTabStep tabs op).length ≤ 10 := by
  cases op with
  | cleanup now =>
    exact le_trans (List.length_filter_le _ _) h
  | processEvent entry tabRetained =>
    have hl := limitOpenTabs_length_le tabs
    cases tabRetained with
    | false => simpa [dlTabStep] using le_trans hl (by omega)
    | true =>
      simp only [dlTabStep, if_true, List.length_append,
        List.length_singleton]
      omega

theorem dlTabRun_length_le :
    ∀ (ops : List DlTabOp) (tabs : List TabEntry), tabs.length ≤ 10 →
      (dlTabRun tabs ops).length ≤ 10 := by
  intro ops
  induction ops with
  | nil => intro tabs h; exact h
  | cons op ops ih =>
    intro tabs h
    exact ih _ (dlTabStep_length_le tabs op h)

theorem upTabRun_length_le :
    ∀ (ops : List UpTabOp) (tabs tabs2 : List TabEntry), tabs.length ≤ 10 →
      upTabRun tabs ops = some tabs2 → tabs2.length ≤ 10 := by
  intro ops
  induction ops with
  | nil =>
    intro tabs tabs2 h heq
    simp only [upTabRun, Option.some.injEq] at heq
    rw [← heq]; exact h
  | cons op ops ih =>
    intro tabs tabs2 h heq
    simp only [upTabRun] at heq
    cases op with
    | uploadOne fuel now entry =>
      simp only [upTabStep] at heq
      cases hw : waitForUploadSlots fuel now tabs 10 with
      | none => rw [hw] at heq; exact absurd heq (by simp)
      | some r =>
        rw [hw] at heq
        have hr : r.2.length < 10 :=
          waitForUploadSlots_length_lt fuel now tabs 10 r hw
        simp only at heq
        refine ih _ tabs2 ?_ heq
        simp only [List.length_append, List.length_singleton]
        omega
    | cleanup now =>
      simp only [upTabStep] at heq
      exact ih _ tabs2 (le_trans (List.length_filter_le _ _) h) heq
    | limitTabs =>
      simp only [upTabStep] at heq
      exact ih _ tabs2 (le_trans (limitOpenUploadTabs_length_le tabs)
        (by omega)) heq

theorem processSingleMeeting_ledger_sub (st : DlState)
    (eventNumber : String) (oc : MeetingOutcome) (x : String)
    (h : x ∈ ((processSingleMeeting st eventNumber oc).1).downloadedEvents) :
    x ∈ st.downloadedEvents ∨ x = eventNumber := by
  cases oc with
  | videoFound bf t =>
    cases bf with
    | false => exact Or.inl h
    | true =>
      simp only [processSingleMeeting, startDownload, if_true,
        recordDownloadCompletion] at h
      rcases mem_setAdd.mp h with h1 | h2
      · exact Or.inr h1
      · exact Or.inl h2
  | noNewTab => exact Or.inl h
  | notMeetingPage => exact Or.inl h
  | noMediaButton => exact Or.inl h
  | noVideoLink => exact Or.inl h

theorem foldl_process_ledger_sub :
    ∀ (cands : List MeetingElement) (st : DlState) (x : String)
      (outcomes : String → MeetingOutcome),
      x ∈ (cands.foldl (fun s e =>
          (processSingleMeeting s e.eventNumber
            (outcomes e.eventNumber)).1) st).downloadedEvents →
      x ∈ st.downloadedEvents ∨ ∃ e ∈ cands, e.eventNumber = x := by
  intro cands
  induction cands with
  | nil => intro st x outcomes h; exact Or.inl h
  | cons e es ih =>
    intro st x outcomes h
    simp only [List.foldl_cons] at h
    rcases ih _ x outcomes h with h1 | ⟨e2, hm, he⟩
    · rcases processSingleMeeting_ledger_sub _ _ _ _ h1 with h2 | h3
      · exact Or.inl h2
      · exact Or.inr ⟨e, List.mem_cons_self e es, h3.symm⟩
    · exact Or.inr ⟨e2, List.mem_cons_of_mem e hm, he⟩

/-- Loop invariant of the scheduler model: completed pass intervals are
pairwise disjoint in order, and every completed pass ended by the current
time. -/
def schedOk (s : SchedState) : Prop :=
  s.passes.Pairwise (fun a b => a.2 ≤ b.1) ∧ ∀ p ∈ s.passes, p.2 ≤ s.now

theorem schedStep_ok (d : Nat) (s : SchedState) (h : schedOk s) :
    schedOk (schedStep d s) := by
  rcases h with ⟨hp, hb⟩
  unfold schedStep schedOk
  by_cases hdue : s.nextRun ≤ s.now
  · simp only [hdue, if_true]
    constructor
    · rw [List.pairwise_append]
      refine ⟨hp, List.pairwise_singleton _ _, ?_⟩
      intro a ha b hb2
      rcases List.mem_singleton.mp hb2 with rfl
      exact hb a ha
    · intro p hp2
      rcases List.mem_append.mp hp2 with h1 | h2
      · have := hb p h1
        omega
      · rcases List.mem_singleton.mp h2 with rfl
        simp
  · simp only [hdue, if_false]
    refine ⟨hp, fun p hp2 => ?_⟩
    have := hb p hp2
    omega

theorem schedSteps_ok (d : Nat) :
    ∀ (n : Nat) (s : SchedState), schedOk s →
      schedOk (schedSteps d n s) := by
  intro n
  induction n with
  | zero => intro s h; exact h
  | succ m ih => intro s h; exact ih _ (schedStep_ok d s h)

/-! ### Claim theorems -/

/-- Claim C1: recording a completion in the dedup ledger is idempotent.
For any downloader state whose `downloaded_events` set is duplicate-free
and any uploader state whose `uploaded_files` set is duplicate-free,
recording the same event id (resp. relative path) twice succeeds both
times and leaves exactly one entry for it in the persisted ledger file
(`downloaded_events.txt`, resp. the `uploaded_files` array of
`uploaded_files.json`) and in the in-memory set. -/
theorem ledger_record_idempotent (dl : DlState) (up : UpState)
    (eventId relPath : String)
    (hdl : dl.downloadedEvents.Nodup) (hup : up.uploadedFiles.Nodup) :
    (recordDownloadCompletion dl eventId).2 = true ∧
    (recordDownloadCompletion (recordDownloadCompletion dl eventId).1
        eventId).2 = true ∧
    ((recordDownloadCompletion (recordDownloadCompletion dl eventId).1
        eventId).1).savedEvents.count eventId = 1 ∧
    ((recordDownloadCompletion (recordDownloadCompletion dl eventId).1
        eventId).1).downloadedEvents.count eventId = 1 ∧
    (recordUploadCompletion up relPath).2 = true ∧
    (recordUploadCompletion (recordUploadCompletion up relPath).1
        relPath).2 = true ∧
    ((recordUploadCompletion (recordUploadCompletion up relPath).1
        relPath).1).savedUploadedFiles.count relPath = 1 ∧
    ((recordUploadCompletion (recordUploadCompletion up relPath).1
        relPath).1).uploadedFiles.count relPath = 1 := by
  have hstep : setAdd (setAdd dl.downloadedEvents eventId) eventId
      = setAdd dl.downloadedEvents eventId :=
    setAdd_of_mem (setAdd_mem_self dl.downloadedEvents eventId)
  have hstepUp : setAdd (setAdd up.uploadedFiles relPath) relPath
      = setAdd up.uploadedFiles relPath :=
    setAdd_of_mem (setAdd_mem_self up.uploadedFiles relPath)
  refine ⟨rfl, rfl, ?_, ?_, rfl, rfl, ?_, ?_⟩
  · simp only [recordDownloadCompletion, hstep, saveDownloadedEvents_count]
    exact setAdd_count_self eventId hdl
  · simp only [recordDownloadCompletion, hstep]
    exact setAdd_count_self eventId hdl
  · simp only [recordUploadCompletion, hstepUp]
    exact setAdd_count_self relPath hup
  · simp only [recordUploadCompletion, hstepUp]
    exact setAdd_count_self relPath hup

/-- Witness for C1 at a concrete input: a downloader ledger holding `5` and
an empty uploader ledger, recording `7` twice on each side. -/
theorem ledger_record_idempotent_witness :
    (([("5" : String)].Nodup ∧ ([] : List String).Nodup) ∧
      ((recordDownloadCompletion
          (recordDownloadCompletion ⟨["5"], ["5"], [], []⟩ "7").1
          "7").1).savedEvents.count "7" = 1) := by
  refine ⟨⟨by decide, by decide⟩, ?_⟩
  exact (ledger_record_idempotent ⟨["5"], ["5"], [], []⟩ upEmpty "7" "p"
    (by decide) (by decide)).2.2.1

/-- Claim C2 counterexample: the code records completions at transfer
initiation, not after verified completion.  Starting from the empty states,
`start_download` with the download button present returns success and
records event `101` in the ledger while no artifact for `101` is on disk,
and `upload_file` on its success path records `a/b.mp4` in the upload
ledger while the remote system has not confirmed accepting it. -/
theorem ledger_before_side_effect_cex :
    (("101" ∈ ((startDownload dlEmpty "101" 0 true).1).downloadedEvents) ∧
     ("101" ∉ ((startDownload dlEmpty "101" 0 true).1).artifactsOnDisk) ∧
     (startDownload dlEmpty "101" 0 true).2 = true) ∧
    (("a/b.mp4" ∈
        ((uploadFile upEmpty "a/b.mp4" 0 .buttonsFound).1).uploadedFiles) ∧
     ("a/b.mp4" ∉
        ((uploadFile upEmpty "a/b.mp4" 0 .buttonsFound).1).remoteAccepted) ∧
     (uploadFile upEmpty "a/b.mp4" 0 .buttonsFound).2 = true) := by
  decide

/-- Claim C2 (amended): the acquire-stage ledger record is written
immediately after the download is initiated (the download-button click),
with the artifact-on-disk state untouched, and the publish-stage record is
written right after the final upload click, with no remote acceptance
recorded; when the respective button is missing nothing is recorded.  Thus
a ledger record may exist while its side effect is still in flight. -/
theorem ledger_recorded_at_initiation (dl : DlState) (up : UpState)
    (eventId relPath : String) (t : Int) (oc : UploadOutcome) :
    ((startDownload dl eventId t true).1).downloadedEvents
        = setAdd dl.downloadedEvents eventId ∧
    ((startDownload dl eventId t true).1).artifactsOnDisk
        = dl.artifactsOnDisk ∧
    (startDownload dl eventId t false).1 = dl ∧
    ((uploadFile up relPath t .buttonsFound).1).uploadedFiles
        = setAdd up.uploadedFiles relPath ∧
    ((uploadFile up relPath t .buttonsFound).1).remoteAccepted
        = up.remoteAccepted ∧
    (oc ≠ .buttonsFound → (uploadFile up relPath t oc).1 = up) := by
  refine ⟨rfl, rfl, rfl, rfl, rfl, ?_⟩
  intro h
  cases oc with
  | buttonsFound => exact absurd rfl h
  | fileInputMissing => rfl
  | controlMissing => rfl

/-- Claim C3: for every sequence of tab-pool operations of the downloader
loop (limit-then-process steps and periodic cleanups) and of the uploader
loop (wait-then-upload steps, cleanups and limits), starting from at most
10 live slots, the number of live slots never exceeds 10 at any point;
every reachable intermediate state is the run of some operation prefix, so
the universally quantified bound covers every point of the sequence. -/
theorem pool_bound_invariant :
    (∀ (ops : List DlTabOp) (tabs : List TabEntry), tabs.length ≤ 10 →
      (dlTabRun tabs ops).length ≤ 10) ∧
    (∀ (ops : List UpTabOp) (tabs tabs2 : List TabEntry),
      tabs.length ≤ 10 → upTabRun tabs ops = some tabs2 →
      tabs2.length ≤ 10) :=
  ⟨dlTabRun_length_le, upTabRun_length_le⟩

/-- Witness for C3 at a concrete input: one download pass step from an
empty pool and one upload step from an empty pool both stay within the
bound of 10. -/
theorem pool_bound_invariant_witness :
    (dlTabRun [] [DlTabOp.processEvent ⟨"101", 0⟩ true]).length ≤ 10 ∧
    ∀ tabs2, upTabRun [] [UpTabOp.uploadOne 5 0 ⟨"f.mp4", 0⟩] = some tabs2 →
      tabs2.length ≤ 10 :=
  ⟨pool_bound_invariant.1 [DlTabOp.processEvent ⟨"101", 0⟩ true] []
      (by decide),
   fun tabs2 h =>
     pool_bound_invariant.2 [UpTabOp.uploadOne 5 0 ⟨"f.mp4", 0⟩] [] tabs2
       (by decide) h⟩

/-- Claim C4: for a candidate mp4 file (present in the scan and not already
in the upload ledger), the stability gate of `find_files_to_upload` passes
it if and only if its size strictly exceeds 1 MiB (`1024 * 1024` bytes) and
it was last modified more than 300 seconds (5 minutes) before the check;
the gate is re-evaluated from the current state on every scan, so a file
satisfying both is eligible on the very next check. -/
theorem stability_gate_iff (uploaded : List String) (now : Int)
    (files : List ScanFile) (f : ScanFile)
    (hmem : f ∈ files) (hnew : f.relPath ∉ uploaded) :
    f ∈ findFilesToUpload uploaded now files ↔
      1024 * 1024 < f.sizeBytes ∧ 300 < now - f.mtime := by
  simp [findFilesToUpload, fileEligible, List.mem_filter, hmem, hnew]

/-- Witness for C4 at a concrete input: a 2 MiB file last modified 1000
seconds before the check, never uploaded, passes the gate. -/
theorem stability_gate_iff_witness :
    (⟨"w/corrected_format/a.mp4", 2097152, 0⟩ : ScanFile) ∈
      findFilesToUpload [] 1000 [⟨"w/corrected_format/a.mp4", 2097152, 0⟩] :=
  (stability_gate_iff [] 1000 [⟨"w/corrected_format/a.mp4", 2097152, 0⟩]
      ⟨"w/corrected_format/a.mp4", 2097152, 0⟩ (by decide) (by decide)).mpr
    (by decide)

/-- Claim C5: slot-TTL reclamation is stage-specific.  For every tracked
tab, the downloader cleanup reclaims (closes) it exactly when its
wall-clock age exceeds 300 seconds (5 minutes), and the uploader cleanup
reclaims it exactly when its age exceeds 720 seconds (12 minutes); a tab at
or below its stage TTL survives the scan. -/
theorem ttl_reclamation_stage_specific (now : Int) (tabs : List TabEntry)
    (t : TabEntry) (hmem : t ∈ tabs) :
    (t ∉ cleanupOldDownloadTabs now tabs ↔ 300 < now - t.startTime) ∧
    (t ∉ cleanupOldUploadTabs now tabs ↔ 720 < now - t.startTime) := by
  constructor
  · simp [cleanupOldDownloadTabs, List.mem_filter, hmem]
    omega
  · simp [cleanupOldUploadTabs, List.mem_filter, hmem]
    omega

/-- Witness for C5 at a concrete input: a tab leased at time 0, scanned at
time 600, is past the 5-minute download TTL but within the 12-minute
upload TTL. -/
theorem ttl_reclamation_stage_specific_witness :
    ((⟨"101", 0⟩ : TabEntry) ∉
        cleanupOldDownloadTabs 600 [⟨"101", 0⟩] ↔ (300 : Int) < 600 - 0) ∧
    ((⟨"101", 0⟩ : TabEntry) ∉
        cleanupOldUploadTabs 600 [⟨"101", 0⟩] ↔ (720 : Int) < 600 - 0) :=
  ttl_reclamation_stage_specific 600 [⟨"101", 0⟩] ⟨"101", 0⟩ (by decide)

/-- Witness for the amended C2 at a concrete input: the success paths from
the empty states record the id while leaving the side-effect state empty. -/
theorem ledger_recorded_at_initiation_witness :
    ((startDownload dlEmpty "101" 0 true).1).downloadedEvents
        = setAdd [] "101" ∧
    (uploadFile upEmpty "a/b.mp4" 0 .fileInputMissing).1 = upEmpty :=
  ⟨(ledger_recorded_at_initiation dlEmpty upEmpty "101" "a/b.mp4" 0
      .fileInputMissing).1,
   (ledger_recorded_at_initiation dlEmpty upEmpty "101" "a/b.mp4" 0
      .fileInputMissing).2.2.2.2.2 (by decide)⟩

/-- Claim C6: a discovered catalog entry whose source date lies more than
14 days before the current process time, or in the future, is excluded at
discovery: it is not in the candidate list of `load_all_events`, and —
provided its id is unique in the catalog and not already ledgered — its id
never enters the ledger during the whole scan pass, whatever the outcomes
of the processed candidates are. -/
theorem discovery_window_exclusion (st : DlState) (now d : Int)
    (elements : List MeetingElement) (e : MeetingElement)
    (outcomes : String → MeetingOutcome)
    (hmem : e ∈ elements) (hdate : e.sourceDate = some d)
    (hout : d < now - 14 * secondsPerDay ∨ now < d)
    (huniq : ∀ e2 ∈ elements, e2.eventNumber = e.eventNumber → e2 = e)
    (hledger : e.eventNumber ∉ st.downloadedEvents) :
    e ∉ loadAllEvents st.downloadedEvents now elements ∧
    e.eventNumber ∉
      (runScanPass st now elements outcomes).downloadedEvents := by
  have hnotc : e ∉ loadAllEvents st.downloadedEvents now elements := by
    intro hc
    simp only [loadAllEvents, List.mem_filter, List.mem_reverse, hdate,
      Bool.and_eq_true, decide_eq_true_eq, secondsPerDay] at hc
    simp only [secondsPerDay] at hout
    rcases hout with hout | hout <;> omega
  refine ⟨hnotc, ?_⟩
  intro hin
  rcases foldl_process_ledger_sub
      (loadAllEvents st.downloadedEvents now elements) st e.eventNumber
      outcomes hin with h1 | ⟨e2, hm2, he2⟩
  · exact hledger h1
  · have he2mem : e2 ∈ elements := by
      have h3 := hm2
      simp only [loadAllEvents, List.mem_filter, List.mem_reverse] at h3
      exact h3.1
    rcases huniq e2 he2mem he2 with rfl
    exact hnotc hm2

/-- Witness for C6 at a concrete input: an event dated 5 seconds in the
future of process time 2000000 is excluded from candidacy and from the
ledger of the whole pass. -/
theorem discovery_window_exclusion_witness :
    (⟨"200", some 2000005⟩ : MeetingElement) ∉
      loadAllEvents dlEmpty.downloadedEvents 2000000 [⟨"200", some 2000005⟩] ∧
    "200" ∉ (runScanPass dlEmpty 2000000 [⟨"200", some 2000005⟩]
      (fun _ => MeetingOutcome.noVideoLink)).downloadedEvents :=
  discovery_window_exclusion dlEmpty 2000000 2000005 [⟨"200", some 2000005⟩]
    ⟨"200", some 2000005⟩ (fun _ => MeetingOutcome.noVideoLink)
    (by decide) rfl (by right; decide) (by decide) (by decide)

/-- Claim C7 counterexample: a meeting whose processing finds no video link
is NOT recorded in the dedup ledger.  Starting from the empty state,
processing event `101` with the no-video outcome leaves both the in-memory
set and the saved ledger file empty and returns failure, and a later
discovery pass over the unchanged catalog (process time 500000, event date
in window) returns the event as a candidate again — contradicting the
claim that it is ledgered as completed-with-no-artifact and never
retried. -/
theorem no_media_ledgered_cex :
    ((processSingleMeeting dlEmpty "101" .noVideoLink).1).downloadedEvents
        = [] ∧
    ((processSingleMeeting dlEmpty "101" .noVideoLink).1).savedEvents
        = [] ∧
    (processSingleMeeting dlEmpty "101" .noVideoLink).2 = false ∧
    (⟨"101", some 500000⟩ : MeetingElement) ∈
      loadAllEvents
        ((processSingleMeeting dlEmpty "101" .noVideoLink).1).downloadedEvents
        500000 [⟨"101", some 500000⟩] := by
  decide

/-- Claim C7 (amended): an item whose acquisition ends with no media found
is NOT recorded in the dedup ledger at all — the no-video path of
`process_single_meeting` leaves the state unchanged and returns failure —
so a later discovery pass over an unchanged catalog returns the item as a
candidate again: it is retried every cycle rather than never retried. -/
theorem no_media_not_ledgered (st : DlState) (eventId : String) (now : Int)
    (elements : List MeetingElement) (e : MeetingElement) :
    (processSingleMeeting st eventId .noVideoLink).1 = st ∧
    (processSingleMeeting st eventId .noVideoLink).2 = false ∧
    (e ∈ loadAllEvents st.downloadedEvents now elements →
      e ∈ loadAllEvents
        ((processSingleMeeting st eventId .noVideoLink).1).downloadedEvents
        now elements) :=
  ⟨rfl, rfl, fun h => h⟩

/-- Witness for the amended C7 at a concrete input: after a no-video
outcome for event `101`, the unchanged catalog yields event `101` as a
candidate again on the next pass. -/
theorem no_media_not_ledgered_witness :
    (⟨"101", some 400000⟩ : MeetingElement) ∈
      loadAllEvents
        ((processSingleMeeting dlEmpty "101" .noVideoLink).1).downloadedEvents
        400000 [⟨"101", some 400000⟩] :=
  (no_media_not_ledgered dlEmpty "101" 400000 [⟨"101", some 400000⟩]
    ⟨"101", some 400000⟩).2.2 (by decide)

/-- Claim C8 counterexample: `wait_for_upload_slots` has no timeout and no
`PoolExhausted` result.  With a full pool of ten slots all leased at time
0, the wait loop is still blocked after 2 sleep rounds (60 seconds, past
any plausible timeout), and with enough fuel it runs 25 sleep rounds (750
seconds of blocking) and then returns normally with the pool emptied by
TTL reclamation — success, not an error. -/
theorem slot_wait_no_timeout_cex :
    waitForUploadSlots 2 0 tenFreshTabs 10 = none ∧
    waitForUploadSlots 100 0 tenFreshTabs 10 =
      some (750, ([] : List TabEntry)) := by
  decide

/-- Claim C8 (amended): `wait_for_upload_slots` blocks with no timeout
parameter and no error return: it repeatedly sleeps 30 seconds and
reclaims tabs older than 12 minutes, and whenever it returns, it returns
normally with the number of live upload tabs strictly below
`max_concurrent`; it never reports pool exhaustion to the caller. -/
theorem slot_wait_returns_free_slot (fuel : Nat) (now : Int)
    (tabs : List TabEntry) (maxConcurrent : Nat) (r : Int × List TabEntry)
    (h : waitForUploadSlots fuel now tabs maxConcurrent = some r) :
    r.2.length < maxConcurrent :=
  waitForUploadSlots_length_lt fuel now tabs maxConcurrent r h

/-- Witness for the amended C8 at a concrete input: from a full pool of
fresh slots the wait returns (after 750 seconds) with 0 < 10 live tabs. -/
theorem slot_wait_returns_free_slot_witness :
    waitForUploadSlots 30 0 tenFreshTabs 10 =
      some (750, ([] : List TabEntry)) ∧
    ((750 : Int), ([] : List TabEntry)).2.length < 10 :=
  ⟨by decide,
   slot_wait_returns_free_slot 30 0 tenFreshTabs 10 (750, []) (by decide)⟩

/-- Claim C9: scheduled pipeline passes of one scheduler loop never
overlap.  `schedule.run_pending()` runs the registered pass synchronously
on the scheduler thread, so however many loop iterations run and whatever
the pass duration is, the completed pass intervals are pairwise disjoint
in order: each pass ends no later than the next one starts. -/
theorem scheduler_passes_disjoint (passDuration n : Nat) (t0 : Int) :
    ((schedSteps passDuration n (schedInit t0)).passes).Pairwise
      (fun a b => a.2 ≤ b.1) :=
  (schedSteps_ok passDuration n (schedInit t0)
    ⟨List.Pairwise.nil, by intro p hp; simp [schedInit] at hp⟩).1

/-- Claim C10: when loading `uploaded_files.json` fails, the uploader
resets its uploaded-files set to empty and continues, so every artifact on
disk is again treated as never uploaded: any stable mp4 in a
`corrected_format` folder (size above 1 MiB, quiet for more than 5
minutes) is returned by the next `find_files_to_upload` scan. -/
theorem corrupt_ledger_resets (now : Int) (files : List ScanFile)
    (f : ScanFile) :
    loadUploadHistory .loadFailed = [] ∧
    (f ∈ files → 1024 * 1024 < f.sizeBytes → 300 < now - f.mtime →
      f ∈ findFilesToUpload (loadUploadHistory .loadFailed) now files) := by
  refine ⟨rfl, fun hm hs ht => ?_⟩
  simp [findFilesToUpload, fileEligible, List.mem_filter, loadUploadHistory,
    hm, hs, ht]

/-- Witness for C10 at a concrete input: after a failed ledger load, a
2 MiB file quiet for 1000 seconds is selected for (re-)upload. -/
theorem corrupt_ledger_resets_witness :
    (⟨"w/corrected_format/b.mp4", 2097152, 0⟩ : ScanFile) ∈
      findFilesToUpload (loadUploadHistory .loadFailed) 1000
        [⟨"w/corrected_format/b.mp4", 2097152, 0⟩] :=
  (corrupt_ledger_resets 1000 [⟨"w/corrected_format/b.mp4", 2097152, 0⟩]
    ⟨"w/corrected_format/b.mp4", 2097152, 0⟩).2 (by decide) (by decide)
    (by decide)

end Brookline
